import Mathlib

/-!
Verification of the chat-room data-access layer
(`core/database/models/chatrooms.py`) against its specification.

The Python module is shallowly embedded: the database is a record of
in-memory tables, the query-builder primitives (`select`, `select_one`,
`execute_query`, provided by the external `core.database.MySQL` class)
are modelled from the spec's QueryBuilder contract, and each method of
the `Chatrooms` model becomes a Lean function over that state.
Machine integers are `Int`; fallible paths return `Except`.
-/

namespace Chatrooms

/-! ### Keyed descending insertion sort

Models the SQL `ORDER BY <key> DESC` clause of the query primitives.
-/

/-- Insert `x` into a list kept in descending `key` order. -/
def insertDesc (key : α → Int) (x : α) : List α → List α
  | [] => [x]
  | y :: ys => if key y ≤ key x then x :: y :: ys else y :: insertDesc key x ys

/-- Sort a list into descending `key` order (insertion sort). -/
def sortDescBy (key : α → Int) : List α → List α
  | [] => []
  | x :: xs => insertDesc key x (sortDescBy key xs)

theorem perm_insertDesc (key : α → Int) (x : α) :
    ∀ l : List α, List.Perm (insertDesc key x l) (x :: l)
  | [] => List.Perm.refl _
  | y :: ys => by
    simp only [insertDesc]
    by_cases h : key y ≤ key x
    · rw [if_pos h]
    · rw [if_neg h]
      exact ((perm_insertDesc key x ys).cons y).trans (List.Perm.swap x y ys)

theorem perm_sortDescBy (key : α → Int) :
    ∀ l : List α, List.Perm (sortDescBy key l) l
  | [] => List.Perm.refl _
  | x :: xs => by
    simpa [sortDescBy] using
      (perm_insertDesc key x (sortDescBy key xs)).trans
        ((perm_sortDescBy key xs).cons x)

theorem pairwise_insertDesc (key : α → Int) (x : α) (l : List α)
    (h : l.Pairwise (fun a b => key b ≤ key a)) :
    (insertDesc key x l).Pairwise (fun a b => key b ≤ key a) := by
  induction l with
  | nil => simp [insertDesc]
  | cons y ys ih =>
    rcases h with _ | ⟨hy, hys⟩
    simp only [insertDesc]
    by_cases hxy : key y ≤ key x
    · rw [if_pos hxy]
      refine List.Pairwise.cons ?_ (List.Pairwise.cons hy hys)
      intro b hb
      rcases List.mem_cons.mp hb with rfl | hb2
      · exact hxy
      · exact le_trans (hy b hb2) hxy
    · rw [if_neg hxy]
      refine List.Pairwise.cons ?_ (ih hys)
      intro b hb
      have hb2 := (perm_insertDesc key x ys).mem_iff.mp hb
      rcases List.mem_cons.mp hb2 with rfl | hb3
      · exact le_of_not_le hxy
      · exact hy b hb3

theorem pairwise_sortDescBy (key : α → Int) :
    ∀ l : List α, (sortDescBy key l).Pairwise (fun a b => key b ≤ key a)
  | [] => List.Pairwise.nil
  | x :: xs => pairwise_insertDesc key x _ (pairwise_sortDescBy key xs)

/-! ### Data model

One structure per table touched by the module: `chatrooms`, `apps`,
`agents`, `chatroom_agent_relation`, `app_runs`.  Field names follow the
columns used by the source.
-/

/-- A row of the `chatrooms` table. -/
structure Chatroom where
  id : Int
  user_id : Int
  app_id : Int
  max_round : Int
  status : Int
  chat_status : Int
  active : Int
  smart_selection : Int
deriving DecidableEq

/-- A row of the `apps` table (columns used by this module only). -/
structure App where
  id : Int
  name : String
  description : String
  icon : String
  icon_background : String
  status : Int
  mode : Int
deriving DecidableEq

/-- A row of the `agents` table (columns used by this module only). -/
structure Agent where
  id : Int
  app_id : Int
  obligations : String
deriving DecidableEq

/-- A row of the `chatroom_agent_relation` table. -/
structure AgentRelation where
  id : Int
  chatroom_id : Int
  agent_id : Int
deriving DecidableEq

/-- A row of the `app_runs` table (columns used by this module only). -/
structure AppRun where
  id : Int
  chatroom_id : Int
  created_time : Int
deriving DecidableEq

/-- The database state: the five tables the module reads. -/
structure DB where
  chatrooms : List Chatroom
  apps : List App
  agents : List Agent
  relations : List AgentRelation
  app_runs : List AppRun
deriving DecidableEq

/-! ### Room lookup (`search_chatrooms_id`) -/

/-- Result of `search_chatrooms_id`: the Python dict is either
`{status: 1, max_round, app_id, chatroom_status, smart_selection}` or
`{status: 0}`. -/
inductive RoomLookup where
  | found (max_round app_id chatroom_status smart_selection : Int)
  | notFound
deriving DecidableEq

/-- Embeds `Chatrooms.search_chatrooms_id`: a `select_one` on the
`chatrooms` table with equality conditions on `id`, `user_id` and
`status = 1`; the first matching row (if any) supplies the fields. -/
def search_chatrooms_id (db : DB) (chatroom_id user_id : Int) : RoomLookup :=
  match db.chatrooms.find?
      (fun c => c.id == chatroom_id && c.user_id == user_id && c.status == 1) with
  | some c => .found c.max_round c.app_id c.status c.smart_selection
  | none => .notFound

/-! ### Paginated room lister (`all_chat_room_list`) -/

/-- Modelled from the spec: the `LEFT JOIN apps ON chatrooms.app_id =
apps.id` performed by the QueryBuilder (`core.database.MySQL.select` is
not under `src/`): every room paired with each matching app, or with
`none` when no app matches. -/
def leftJoinApps (db : DB) : List (Chatroom × Option App) :=
  db.chatrooms.flatMap fun c =>
    match db.apps.filter (fun a => a.id == c.app_id) with
    | [] => [(c, none)]
    | hits => hits.map fun a => (c, some a)

/-- The condition set built by `all_chat_room_list`, evaluated on a
joined row: `chatrooms.status = 1`, `apps.status = 1`, `apps.mode = 5`,
`chatrooms.user_id = uid`, plus — only when the name filter is non-empty
— `apps.name LIKE "%name%"`.  A SQL condition on an `apps` column is
false on a row whose app side is `NULL`. -/
def listCond (uid : Int) (nameFilter : String) (row : Chatroom × Option App) : Bool :=
  row.1.status == 1 &&
    (match row.2 with
     | some a => a.status == 1 && a.mode == 5
     | none => false) &&
    row.1.user_id == uid &&
    (nameFilter == "" ||
      (match row.2 with
       | some a => a.name.containsSubstr nameFilter
       | none => false))

/-- The aggregate count query of `all_chat_room_list`:
`COUNT(id)` over the joined rows satisfying the condition set. -/
def count_id (db : DB) (uid : Int) (nameFilter : String) : Int :=
  ((leftJoinApps db).filter (listCond uid nameFilter)).length

/-- Errors that can escape the (un-guarded) paginated lister: the
`ZeroDivisionError` raised by Python on `total_count / 0`, and an SQL
execution error from the query layer. -/
inductive DbError where
  | divByZero
  | sqlErr
deriving DecidableEq

/-- Modelled from the spec: the QueryBuilder `selectMany` primitive
(`core.database.MySQL.select` is not under `src/`): the joined rows
satisfying the condition set, ordered by `chatrooms.id DESC`, then paged
with `LIMIT`/`OFFSET`.  The spec's contract covers non-negative limit
and offset only (`page`, `pageSize` are positive integers); a negative
value reaching the SQL layer is an execution error. -/
def selectPage (db : DB) (uid : Int) (nameFilter : String) (limit offset : Int) :
    Except DbError (List (Chatroom × Option App)) :=
  if limit < 0 || offset < 0 then .error .sqlErr
  else
    .ok (((sortDescBy (fun r => r.1.id)
      ((leftJoinApps db).filter (listCond uid nameFilter))).drop offset.toNat).take limit.toNat)

/-- The joined agent view projected by the per-link
`Agents().select_one` call (`LEFT JOIN apps ON apps.id = agents.app_id`):
app columns are `NULL` when no app matches. -/
structure AgentView where
  name : Option String
  description : Option String
  agent_id : Int
  app_id : Int
  icon : Option String
  icon_background : Option String
  obligations : String
deriving DecidableEq

/-- Embeds the hydration lookup `Agents().select_one(..., conditions=[id
= agent_id], joins=[left apps])`: the first agent row with the given id,
joined to its app, or `none` when no such agent exists. -/
def agentLookup (db : DB) (aid : Int) : Option AgentView :=
  (db.agents.find? (fun a => a.id == aid)).map fun ag =>
    match db.apps.find? (fun ap => ap.id == ag.app_id) with
    | some ap =>
        ⟨some ap.name, some ap.description, ag.id, ag.app_id,
          some ap.icon, some ap.icon_background, ag.obligations⟩
    | none => ⟨none, none, ag.id, ag.app_id, none, none, ag.obligations⟩

/-- The `ChatroomAgentRelation().select(...)` call of the hydration
loop: all links of the room, ordered by link id descending. -/
def roomLinksDesc (db : DB) (rid : Int) : List AgentRelation :=
  sortDescBy (fun l => l.id) (db.relations.filter (fun l => l.chatroom_id == rid))

/-- The links that survive the loop's `if agent_item['agent_id'] > 0`
guard, in query order. -/
def positiveLinks (db : DB) (rid : Int) : List AgentRelation :=
  (roomLinksDesc db rid).filter (fun l => 0 < l.agent_id)

/-- The hydration loop body: one lookup result appended per positive
link, in link order, with no further filtering. -/
def hydrateAgentList (db : DB) (rid : Int) : List (Option AgentView) :=
  (positiveLinks db rid).map fun l => agentLookup db l.agent_id

/-- One element of the returned `list`: the projected columns of the
page query plus the hydrated `agent_list`. -/
structure RoomItem where
  name : Option String
  description : Option String
  chatroom_id : Int
  chat_status : Int
  active : Int
  chatroom_status : Int
  smart_selection : Int
  app_id : Option Int
  agent_list : List (Option AgentView)
deriving DecidableEq

/-- Projects a joined row into a `RoomItem` and attaches its hydrated
agent list. -/
def mkRoomItem (db : DB) (row : Chatroom × Option App) : RoomItem :=
  ⟨row.2.map App.name, row.2.map App.description, row.1.id,
    row.1.chat_status, row.1.active, row.1.status, row.1.smart_selection,
    row.2.map App.id, hydrateAgentList db row.1.id⟩

/-- The dictionary returned by `all_chat_room_list`. -/
structure RoomListResult where
  list : List RoomItem
  total_count : Int
  total_pages : Int
  page : Int
  page_size : Int
deriving DecidableEq

/-- Python `math.ceil(a / b)` on integers (true division, then
ceiling), meaningful for `b ≠ 0`: the rational ceiling `-⌊(-a)/b⌋`
computed with integer floor division. -/
def pyCeilDiv (a b : Int) : Int := -((-a).fdiv b)

/-- Embeds `Chatrooms.all_chat_room_list`: count query, page query
(`ORDER BY chatrooms.id DESC`, `limit = page_size`,
`offset = (page - 1) * page_size`), per-row hydration, then the result
dictionary whose `total_pages` is `math.ceil(total_count / page_size)` —
a division by zero when `page_size = 0`. -/
def all_chat_room_list (db : DB) (page page_size uid : Int) (nameFilter : String) :
    Except DbError RoomListResult :=
  let total_count : Int := count_id db uid nameFilter
  match selectPage db uid nameFilter page_size ((page - 1) * page_size) with
  | .error e => .error e
  | .ok rows =>
    let items := rows.map (mkRoomItem db)
    if page_size == 0 then .error .divByZero
    else .ok ⟨items, total_count, pyCeilDiv total_count page_size, page, page_size⟩

/-! ### Recent-activity lister (`recent_chatroom_list`) -/

/-- Per-room maximum `created_time` over `app_runs` (the value the
grouped `MAX(created_time)` sub-query computes for a room); `0` for a
room with no runs (such a room never appears in the sub-query). -/
def maxCreated (db : DB) (cid : Int) : Int :=
  match (db.app_runs.filter (fun r => r.chatroom_id == cid)).map AppRun.created_time with
  | [] => 0
  | t :: ts => ts.foldl max t

/-- Modelled from the spec: the grouped sub-query `SELECT chatroom_id,
MAX(created_time) AS last_run_time FROM app_runs GROUP BY chatroom_id`
run through the raw `execute_query` trapdoor (the SQL engine is not
under `src/`): one pair per distinct room id occurring in `app_runs`. -/
def lastRuns (db : DB) : List (Int × Int) :=
  ((db.app_runs.map AppRun.chatroom_id).dedup).map fun cid => (cid, maxCreated db cid)

/-- The double `INNER JOIN` of the raw recent-rooms query: room ×
matching app × matching `last_run_time`. -/
def recentJoined (db : DB) : List (Chatroom × App × Int) :=
  db.chatrooms.flatMap fun c =>
    (db.apps.filter (fun a => a.id == c.app_id)).flatMap fun a =>
      ((lastRuns db).filter (fun p => p.1 == c.id)).map fun p => (c, a, p.2)

/-- The `WHERE` clause of the raw recent-rooms query. -/
def recentCond (excl uid : Int) (t : Chatroom × App × Int) : Bool :=
  t.1.status == 1 && t.2.1.status == 1 && t.2.1.mode == 5 &&
    t.1.user_id == uid && !(t.1.id == excl)

/-- A row of the raw recent-rooms query, as returned by
`execute_query` (projected columns only). -/
structure RecentRow where
  name : String
  description : String
  chatroom_id : Int
  active : Int
  app_id : Int
deriving DecidableEq

/-- The full raw recent-rooms query: join, filter, `ORDER BY
last_run_time DESC`, `LIMIT 5`, then projection. -/
def recentRawRows (db : DB) (excl uid : Int) : List RecentRow :=
  ((sortDescBy (fun t => t.2.2) ((recentJoined db).filter (recentCond excl uid))).take 5).map
    fun t => ⟨t.2.1.name, t.2.1.description, t.1.id, t.1.active, t.2.1.id⟩

/-- One element of the recent list: the raw row's columns, plus the
`agent_list` key when the hydration loop attached one (`none` models a
dict without the key). -/
structure RecentItem where
  name : String
  description : String
  chatroom_id : Int
  active : Int
  app_id : Int
  agent_list : Option (List Int)
deriving DecidableEq

/-- Modelled from the spec: `showRoomAgents(roomId)`
(`ChatroomAgentRelation.show_chatroom_agent`, an external collaborator
whose module is not under `src/`; the spec leaves its shape to the
collaborator): here, the agent ids linked to the room. -/
def specShowRoomAgents (db : DB) (cid : Int) : List Int :=
  (db.relations.filter (fun l => l.chatroom_id == cid)).map AgentRelation.agent_id

/-- The two fallible collaborators `recent_chatroom_list` calls inside
its `try` block: the raw query and the per-room hydration helper. -/
structure RecentOracle where
  execQuery : Except String (List RecentRow)
  showAgents : Int → Except String (List Int)

/-- Builds a result item from a row and an optional agent list. -/
def mkRecentItem (r : RecentRow) (al : Option (List Int)) : RecentItem :=
  ⟨r.name, r.description, r.chatroom_id, r.active, r.app_id, al⟩

/-- The hydration loop of `recent_chatroom_list`: for each row, when
`chatroom_id` is truthy (non-zero) the helper is called and its result
attached as `agent_list`; a row with `chatroom_id = 0` keeps no
`agent_list` key; the first helper error aborts the whole loop. -/
def attachAgents (hydrate : Int → Except String (List Int)) :
    List RecentRow → Except String (List RecentItem)
  | [] => .ok []
  | r :: rs =>
    match (if r.chatroom_id == 0 then .ok (mkRecentItem r none)
           else (hydrate r.chatroom_id).map fun al => mkRecentItem r (some al)) with
    | .error e => .error e
    | .ok item =>
      match attachAgents hydrate rs with
      | .error e => .error e
      | .ok rest => .ok (item :: rest)

/-- The dictionary returned by `recent_chatroom_list`. -/
structure RecentResult where
  list : List RecentItem
deriving DecidableEq

/-- The `try` block of `recent_chatroom_list`: raw query, then the
hydration loop over its rows. -/
def recentTry (q : RecentOracle) : Except String RecentResult :=
  match q.execQuery with
  | .error e => .error e
  | .ok rows =>
    match attachAgents q.showAgents rows with
    | .error e => .error e
    | .ok items => .ok ⟨items⟩

/-- Embeds `Chatrooms.recent_chatroom_list`: the `try` block wrapped in
the `except Exception` handler that converts any error into
`{"list": []}`. -/
def recent_chatroom_list (q : RecentOracle) : RecentResult :=
  match recentTry q with
  | .ok r => r
  | .error _ => ⟨[]⟩

/-- The oracle backed by the in-memory database: the raw recent-rooms
query and the spec-modelled hydration helper, both succeeding. -/
def dbOracle (db : DB) (excl uid : Int) : RecentOracle :=
  ⟨.ok (recentRawRows db excl uid), fun cid => .ok (specShowRoomAgents db cid)⟩

/-- `recent_chatroom_list` run against the in-memory database. -/
def recentPure (db : DB) (excl uid : Int) : RecentResult :=
  recent_chatroom_list (dbOracle db excl uid)

/-! ### Supporting lemmas -/

theorem pairwise_and_of {α : Type _} {R S : α → α → Prop} {l : List α}
    (hR : l.Pairwise R) (hS : l.Pairwise S) :
    l.Pairwise fun a b => R a b ∧ S a b := by
  induction l with
  | nil => exact List.Pairwise.nil
  | cons x xs ih =>
    rcases List.pairwise_cons.mp hR with ⟨h1, h2⟩
    rcases List.pairwise_cons.mp hS with ⟨h3, h4⟩
    exact List.pairwise_cons.mpr ⟨fun b hb => ⟨h1 b hb, h3 b hb⟩, ih h2 h4⟩

/-- Descending-sorted with pairwise-distinct keys is strictly
descending. -/
theorem pairwise_strict (key : α → Int) {l : List α}
    (hs : l.Pairwise fun a b => key b ≤ key a)
    (hn : (l.map key).Nodup) :
    l.Pairwise fun a b => key b < key a := by
  have hne : l.Pairwise fun a b => key a ≠ key b := List.pairwise_map.mp hn
  exact (pairwise_and_of hs hne).imp fun h => lt_of_le_of_ne h.1 (Ne.symm h.2)

/-- Membership in a sorted page (take of a drop) comes from the
unsorted list. -/
theorem mem_of_mem_page {key : α → Int} {l : List α} {n m : ℕ} {x : α}
    (hx : x ∈ ((sortDescBy key l).drop n).take m) : x ∈ l :=
  (perm_sortDescBy key l).mem_iff.mp
    (List.mem_of_mem_drop (List.mem_of_mem_take hx))

/-- An equality filter over a column with pairwise-distinct values
keeps at most one row. -/
theorem filter_key_single (key : α → Int) {l : List α}
    (h : (l.map key).Nodup) (v : Int) :
    l.filter (fun a => key a == v) = [] ∨
      ∃ a, l.filter (fun a => key a == v) = [a] := by
  induction l with
  | nil => exact Or.inl rfl
  | cons x xs ih =>
    rcases List.nodup_cons.mp h with ⟨hx, hxs⟩
    cases hv : (key x == v) with
    | false =>
      simp only [List.filter_cons, hv, Bool.false_eq_true, if_false]
      exact ih hxs
    | true =>
      right
      refine ⟨x, ?_⟩
      have htail : xs.filter (fun a => key a == v) = [] := by
        rw [List.filter_eq_nil_iff]
        intro b hb hbv
        exact hx (by
          have hbx : key b = key x := by
            have h1 : key b = v := by simpa using hbv
            have h2 : key x = v := by simpa using hv
            rw [h1, h2]
          rw [← hbx]
          exact List.mem_map_of_mem key hb)
      simp [List.filter_cons, hv, htail]

/-- With pairwise-distinct app ids, the left join pairs every room with
exactly one row, so projecting the room side returns the rooms table. -/
theorem leftJoinApps_fst (db : DB) (hApps : (db.apps.map App.id).Nodup) :
    (leftJoinApps db).map Prod.fst = db.chatrooms := by
  unfold leftJoinApps
  induction db.chatrooms with
  | nil => rfl
  | cons c cs ih =>
    rcases filter_key_single App.id hApps c.app_id with hnil | ⟨a, ha⟩
    · rw [List.flatMap_cons, List.map_append, ih, hnil]
      rfl
    · rw [List.flatMap_cons, List.map_append, ih, ha]
      rfl

/-- The room-id column of the joined table is the rooms' id column. -/
theorem leftJoinApps_ids (db : DB) (hApps : (db.apps.map App.id).Nodup) :
    (leftJoinApps db).map (fun r => r.1.id) = db.chatrooms.map Chatroom.id := by
  have h : (fun r : Chatroom × Option App => r.1.id) = (Chatroom.id ∘ Prod.fst) := rfl
  rw [h, ← List.map_map, leftJoinApps_fst db hApps]

/-- Membership in the joined table exposes the underlying rows. -/
theorem mem_leftJoinApps {db : DB} {row : Chatroom × Option App}
    (h : row ∈ leftJoinApps db) :
    row.1 ∈ db.chatrooms ∧
      ∀ a, row.2 = some a → a ∈ db.apps ∧ a.id = row.1.app_id := by
  rcases List.mem_flatMap.mp h with ⟨c, hc, hrow⟩
  rcases hfil : db.apps.filter (fun a => a.id == c.app_id) with _ | ⟨a0, rest⟩
  · rw [hfil] at hrow
    simp only [List.mem_singleton] at hrow
    subst hrow
    refine ⟨hc, ?_⟩
    intro a ha
    cases ha
  · rw [hfil] at hrow
    simp only at hrow
    rcases List.mem_map.mp hrow with ⟨a, ha, hrw⟩
    subst hrw
    refine ⟨hc, ?_⟩
    intro b hb
    cases hb
    have ha2 : a ∈ db.apps.filter (fun x => x.id == c.app_id) := by
      rw [hfil]
      exact ha
    rcases List.mem_filter.mp ha2 with ⟨hmem, hid⟩
    exact ⟨hmem, by simpa using hid⟩

/-- With non-negative limit and offset the page query succeeds and
returns the sorted page. -/
theorem selectPage_ok (db : DB) (uidv : Int) (nm : String) {limit offset : Int}
    (hl : 0 ≤ limit) (ho : 0 ≤ offset) :
    selectPage db uidv nm limit offset =
      .ok (((sortDescBy (fun r => r.1.id)
        ((leftJoinApps db).filter (listCond uidv nm))).drop offset.toNat).take limit.toNat) := by
  have h1 : ¬ limit < 0 := not_lt.mpr hl
  have h2 : ¬ offset < 0 := not_lt.mpr ho
  simp [selectPage, h1, h2]

/-- Anatomy of a successful `all_chat_room_list` call. -/
theorem all_chat_room_list_ok {db : DB} {page page_size uidv : Int} {nm : String}
    {r : RoomListResult}
    (h : all_chat_room_list db page page_size uidv nm = .ok r) :
    page_size ≠ 0 ∧
      ∃ rows, selectPage db uidv nm page_size ((page - 1) * page_size) = .ok rows ∧
        r = ⟨rows.map (mkRoomItem db), count_id db uidv nm,
              pyCeilDiv (count_id db uidv nm) page_size, page, page_size⟩ := by
  simp only [all_chat_room_list] at h
  split at h
  · exact absurd h (by simp)
  · rename_i rows heq
    split at h
    · exact absurd h (by simp)
    · rename_i hz
      injection h with h2
      refine ⟨?_, rows, heq, h2.symm⟩
      simpa using hz

/-- `pyCeilDiv` is the exact rational ceiling for a positive divisor. -/
theorem pyCeilDiv_eq_ceil (a b : Int) (hb : 0 < b) :
    pyCeilDiv a b = ⌈(a : ℚ) / (b : ℚ)⌉ := by
  have hbn : ((b.toNat : ℕ) : Int) = b := Int.toNat_of_nonneg hb.le
  have hbq : ((b.toNat : ℕ) : ℚ) = (b : ℚ) := by
    exact_mod_cast congrArg (fun z : Int => (z : ℚ)) hbn
  have hy : (a : ℚ) / (b : ℚ) = -((((-a : Int)) : ℚ) / ((b.toNat : ℕ) : ℚ)) := by
    rw [hbq]
    push_cast
    ring
  rw [hy, Int.ceil_neg, Rat.floor_intCast_div_natCast]
  unfold pyCeilDiv
  rw [Int.fdiv_eq_ediv _ hb.le, hbn]

/-- `pyCeilDiv 0 b = 0` for a positive divisor. -/
theorem pyCeilDiv_zero (b : Int) (hb : 0 < b) : pyCeilDiv 0 b = 0 := by
  rw [pyCeilDiv_eq_ceil 0 b hb]
  simp

/-! ### Concrete data for witnesses -/

/-- The empty name filter (the default `name=""` of the Python API). -/
def emptyFilter : String := ""

/-- Sample database: rooms 10 and 11 visible to user 3 (app 1, mode 5);
room 12 owned by user 4; room 13 inactive; room 14 on app 2 whose mode
is 2; room 10 linked to agent 5 (link 2) and to agent 0 (link 1); room
11 linked to the dangling agent 9 (link 3). -/
def sampleDb : DB :=
  ⟨[⟨10, 3, 1, 8, 1, 0, 1, 1⟩, ⟨11, 3, 1, 8, 1, 0, 1, 0⟩, ⟨12, 4, 1, 8, 1, 0, 1, 0⟩,
    ⟨13, 3, 1, 8, 0, 0, 1, 0⟩, ⟨14, 3, 2, 8, 1, 0, 1, 0⟩],
   [⟨1, "roomApp", "d", "i", "ib", 1, 5⟩, ⟨2, "other", "d", "i", "ib", 1, 2⟩],
   [⟨5, 1, "ob5"⟩],
   [⟨2, 10, 5⟩, ⟨1, 10, 0⟩, ⟨3, 11, 9⟩],
   [⟨1, 10, 100⟩, ⟨2, 11, 200⟩, ⟨3, 10, 150⟩]⟩

/-- The hydrated view of agent 5 in `sampleDb`. -/
def agentView5 : AgentView :=
  ⟨some "roomApp", some "d", 5, 1, some "i", some "ib", "ob5"⟩

/-- Room 11's listing item in `sampleDb`: its only positive link points
at the dangling agent 9, hence a `none` entry. -/
def roomItem11 : RoomItem :=
  ⟨some "roomApp", some "d", 11, 0, 1, 1, 0, some 1, [none]⟩

/-- Room 10's listing item in `sampleDb`: link to agent 0 skipped, link
to agent 5 hydrated. -/
def roomItem10 : RoomItem :=
  ⟨some "roomApp", some "d", 10, 0, 1, 1, 1, some 1, [some agentView5]⟩

/-- The full result of `all_chat_room_list sampleDb 1 10 3 ""`. -/
def sampleListResult : RoomListResult :=
  ⟨[roomItem11, roomItem10], 2, 1, 1, 10⟩

theorem sample_list_eval :
    all_chat_room_list sampleDb 1 10 3 emptyFilter = Except.ok sampleListResult := by
  rfl

/-! ### The claims -/

/-- C1: for every valid input (page ≥ 1, pageSize ≥ 1, userId) the
paginated room lister succeeds and returns
`total_pages = ceil(total_count / page_size)`, including
`total_count = 0 → total_pages = 0`. -/
theorem C1_total_pages (db : DB) (page page_size uidv : Int) (nm : String)
    (hp : 1 ≤ page) (hs : 1 ≤ page_size) :
    ∃ r, all_chat_room_list db page page_size uidv nm = .ok r ∧
      r.total_pages = ⌈(r.total_count : ℚ) / (r.page_size : ℚ)⌉ ∧
      (r.total_count = 0 → r.total_pages = 0) ∧
      r.page = page ∧ r.page_size = page_size := by
  have hb : (0 : Int) < page_size := by omega
  have ho : 0 ≤ (page - 1) * page_size := mul_nonneg (by omega) hb.le
  have hsel := selectPage_ok db uidv nm hb.le ho
  have hmain : all_chat_room_list db page page_size uidv nm =
      .ok ⟨(((sortDescBy (fun r => r.1.id) ((leftJoinApps db).filter (listCond uidv nm))).drop
              ((page - 1) * page_size).toNat).take page_size.toNat).map (mkRoomItem db),
            count_id db uidv nm, pyCeilDiv (count_id db uidv nm) page_size, page, page_size⟩ := by
    simp only [all_chat_room_list, hsel]
    have hz : ¬ ((page_size == 0) = true) := by
      simp only [beq_iff_eq]
      omega
    rw [if_neg hz]
  refine ⟨_, hmain, ?_, ?_, rfl, rfl⟩
  · exact pyCeilDiv_eq_ceil _ _ hb
  · intro h0
    have h0b : count_id db uidv nm = 0 := h0
    show pyCeilDiv (count_id db uidv nm) page_size = 0
    rw [h0b]
    exact pyCeilDiv_zero _ hb

theorem C1_witness :
    1 ≤ (1 : Int) ∧ 1 ≤ (10 : Int) ∧
      ∃ r, all_chat_room_list sampleDb 1 10 3 emptyFilter = .ok r ∧
        r.total_pages = ⌈(r.total_count : ℚ) / (r.page_size : ℚ)⌉ ∧
        (r.total_count = 0 → r.total_pages = 0) ∧
        r.page = 1 ∧ r.page_size = 10 :=
  ⟨by decide, by decide,
    C1_total_pages sampleDb 1 10 3 emptyFilter (by decide) (by decide)⟩

/-- C2: the room lookup finds a room exactly when a row matches the
room id, the owning user id and active status together, returning its
fields; otherwise (including a room owned by another user) it returns
the not-found result, never an exception. -/
theorem C2_room_lookup (db : DB) (rid uidv : Int) :
    (∃ c ∈ db.chatrooms, c.id = rid ∧ c.user_id = uidv ∧ c.status = 1 ∧
        search_chatrooms_id db rid uidv =
          RoomLookup.found c.max_round c.app_id c.status c.smart_selection) ∨
      ((¬ ∃ c ∈ db.chatrooms, c.id = rid ∧ c.user_id = uidv ∧ c.status = 1) ∧
        search_chatrooms_id db rid uidv = RoomLookup.notFound) := by
  rcases hf : db.chatrooms.find?
      (fun c => c.id == rid && c.user_id == uidv && c.status == 1) with _ | c
  · right
    refine ⟨?_, by simp [search_chatrooms_id, hf]⟩
    rintro ⟨c, hc, h1, h2, h3⟩
    have hnone := List.find?_eq_none.mp hf c hc
    simp [h1, h2, h3] at hnone
  · left
    have hmem := List.mem_of_find?_eq_some hf
    have hp := List.find?_some hf
    simp only [Bool.and_eq_true, beq_iff_eq] at hp
    exact ⟨c, hmem, hp.1.1, hp.1.2, hp.2, by simp [search_chatrooms_id, hf]⟩

theorem C2_witness : search_chatrooms_id sampleDb 12 3 = RoomLookup.notFound := by
  rcases C2_room_lookup sampleDb 12 3 with ⟨c, hc, h1, h2, h3, h4⟩ | ⟨h, he⟩
  · exfalso
    fin_cases hc <;> simp_all
  · exact he

/-- C3: during hydration, a room-agent link whose agent id is zero or
negative contributes no entry: each item's `agent_list` has exactly as
many entries as the room has links with positive agent id. -/
theorem C3_nonpositive_links (db : DB) (page page_size uidv : Int) (nm : String)
    (r : RoomListResult) (h : all_chat_room_list db page page_size uidv nm = .ok r) :
    ∀ item ∈ r.list, item.agent_list.length =
      (db.relations.filter fun l =>
        l.chatroom_id == item.chatroom_id && decide (0 < l.agent_id)).length := by
  obtain ⟨hz, rows, hsel, hr⟩ := all_chat_room_list_ok h
  subst hr
  intro item hit
  rcases List.mem_map.mp hit with ⟨row, hrow, hitem⟩
  subst hitem
  show (hydrateAgentList db row.1.id).length = _
  unfold hydrateAgentList positiveLinks roomLinksDesc
  rw [List.length_map]
  have hperm := ((perm_sortDescBy (fun l : AgentRelation => l.id)
      (db.relations.filter (fun l => l.chatroom_id == row.1.id)))).filter
      (fun l => decide (0 < l.agent_id))
  rw [hperm.length_eq, List.filter_filter]
  apply congrArg List.length
  apply List.filter_congr
  intro a _
  exact Bool.and_comm _ _

theorem C3_witness :
    roomItem10 ∈ sampleListResult.list ∧ roomItem10.agent_list.length = 1 ∧
      roomItem10.agent_list.length =
        (sampleDb.relations.filter fun l =>
          l.chatroom_id == roomItem10.chatroom_id && decide (0 < l.agent_id)).length :=
  ⟨by decide, by decide,
    C3_nonpositive_links sampleDb 1 10 3 emptyFilter sampleListResult
      sample_list_eval roomItem10 (by decide)⟩

/-- Sorting a list whose keys are pairwise distinct gives a strictly
descending result. -/
theorem pairwise_strict_sortDescBy (key : α → Int) (l : List α)
    (hn : (l.map key).Nodup) :
    (sortDescBy key l).Pairwise fun a b => key b < key a :=
  pairwise_strict key (pairwise_sortDescBy key l)
    (((perm_sortDescBy key l).map key).nodup_iff.mpr hn)

/-- A successful page query returns exactly the sorted page slice. -/
theorem selectPage_rows {db : DB} {uidv : Int} {nm : String} {limit offset : Int}
    {rows : List (Chatroom × Option App)}
    (hsel : selectPage db uidv nm limit offset = .ok rows) :
    rows = ((sortDescBy (fun r => r.1.id)
      ((leftJoinApps db).filter (listCond uidv nm))).drop offset.toNat).take limit.toNat := by
  unfold selectPage at hsel
  split at hsel
  · exact absurd hsel (by simp)
  · injection hsel with h2
    exact h2.symm

/-- C4: pages are listed in strictly descending room-id order, and each
room's `agent_list` is the hydration, in order, of its positive links
taken in strictly descending link-id order (given the primary-key
uniqueness of the three tables involved). -/
theorem C4_ordering (db : DB) (page page_size uidv : Int) (nm : String)
    (r : RoomListResult)
    (hRooms : (db.chatrooms.map Chatroom.id).Nodup)
    (hApps : (db.apps.map App.id).Nodup)
    (hRels : (db.relations.map AgentRelation.id).Nodup)
    (h : all_chat_room_list db page page_size uidv nm = .ok r) :
    (r.list.map RoomItem.chatroom_id).Pairwise (fun a b => b < a) ∧
      ∀ item ∈ r.list,
        item.agent_list =
          (positiveLinks db item.chatroom_id).map (fun l => agentLookup db l.agent_id) ∧
        ((positiveLinks db item.chatroom_id).map AgentRelation.id).Pairwise
          (fun a b => b < a) := by
  obtain ⟨hz, rows, hsel, hr⟩ := all_chat_room_list_ok h
  subst hr
  have hrows := selectPage_rows hsel
  constructor
  · -- rooms strictly descending by id
    have hnj : ((leftJoinApps db).map (fun r => r.1.id)).Nodup := by
      rw [leftJoinApps_ids db hApps]
      exact hRooms
    have hnf : (((leftJoinApps db).filter (listCond uidv nm)).map
        (fun r => r.1.id)).Nodup :=
      hnj.sublist (List.Sublist.map _ (List.filter_sublist _))
    have hsorted := pairwise_strict_sortDescBy (fun r : Chatroom × Option App => r.1.id)
      ((leftJoinApps db).filter (listCond uidv nm)) hnf
    have hpage : rows.Pairwise (fun a b => b.1.id < a.1.id) := by
      rw [hrows]
      exact hsorted.sublist ((List.take_sublist _ _).trans (List.drop_sublist _ _))
    show ((rows.map (mkRoomItem db)).map RoomItem.chatroom_id).Pairwise fun a b => b < a
    rw [List.map_map]
    exact List.pairwise_map.mpr hpage
  · intro item hit
    rcases List.mem_map.mp hit with ⟨row, hrow, hitem⟩
    subst hitem
    refine ⟨rfl, ?_⟩
    show (((sortDescBy (fun l : AgentRelation => l.id)
      (db.relations.filter (fun l => l.chatroom_id == row.1.id))).filter
        (fun l => decide (0 < l.agent_id))).map AgentRelation.id).Pairwise fun a b => b < a
    have hnf : ((db.relations.filter
        (fun l => l.chatroom_id == row.1.id)).map AgentRelation.id).Nodup :=
      hRels.sublist (List.Sublist.map _ (List.filter_sublist _))
    have hsorted := pairwise_strict_sortDescBy (fun l : AgentRelation => l.id)
      (db.relations.filter (fun l => l.chatroom_id == row.1.id)) hnf
    exact List.pairwise_map.mpr (hsorted.sublist (List.filter_sublist _))

theorem C4_witness :
    (sampleListResult.list.map RoomItem.chatroom_id).Pairwise (fun a b => b < a) ∧
      ∀ item ∈ sampleListResult.list,
        item.agent_list =
          (positiveLinks sampleDb item.chatroom_id).map
            (fun l => agentLookup sampleDb l.agent_id) ∧
        ((positiveLinks sampleDb item.chatroom_id).map AgentRelation.id).Pairwise
          (fun a b => b < a) :=
  C4_ordering sampleDb 1 10 3 emptyFilter sampleListResult
    (by decide) (by decide) (by decide) sample_list_eval

/-- C5: a returned room always has active status, and its owning app
exists, is active and has mode 5; the count query uses exactly the same
condition set as the page query. -/
theorem C5_visibility (db : DB) (page page_size uidv : Int) (nm : String)
    (r : RoomListResult) (h : all_chat_room_list db page page_size uidv nm = .ok r) :
    r.total_count = (((leftJoinApps db).filter (listCond uidv nm)).length : Int) ∧
      ∀ item ∈ r.list, item.chatroom_status = 1 ∧
        ∃ c ∈ db.chatrooms, ∃ a ∈ db.apps,
          item.chatroom_id = c.id ∧ c.status = 1 ∧ c.app_id = a.id ∧
          a.status = 1 ∧ a.mode = 5 ∧ item.app_id = some a.id := by
  obtain ⟨hz, rows, hsel, hr⟩ := all_chat_room_list_ok h
  subst hr
  have hrows := selectPage_rows hsel
  refine ⟨rfl, ?_⟩
  intro item hit
  rcases List.mem_map.mp hit with ⟨row, hrow, hitem⟩
  obtain ⟨c, oa⟩ := row
  subst hitem
  have hmemf : (c, oa) ∈ (leftJoinApps db).filter (listCond uidv nm) := by
    rw [hrows] at hrow
    exact mem_of_mem_page hrow
  rcases List.mem_filter.mp hmemf with ⟨hjoin, hcond⟩
  rcases oa with _ | a
  · -- a NULL app side cannot satisfy the app conditions
    exact absurd hcond (by simp [listCond])
  · unfold listCond at hcond
    simp only [Bool.and_eq_true, beq_iff_eq] at hcond
    obtain ⟨⟨⟨hc1, ha⟩, huid⟩, hnm⟩ := hcond
    obtain ⟨ha1, ha2⟩ := ha
    obtain ⟨hcmem, happ⟩ := mem_leftJoinApps hjoin
    obtain ⟨hamem, haid⟩ := happ a rfl
    exact ⟨hc1, c, hcmem, a, hamem, rfl, hc1, haid.symm, ha1, ha2, rfl⟩

theorem C5_witness :
    sampleListResult.total_count =
        (((leftJoinApps sampleDb).filter (listCond 3 emptyFilter)).length : Int) ∧
      ∀ item ∈ sampleListResult.list, item.chatroom_status = 1 ∧
        ∃ c ∈ sampleDb.chatrooms, ∃ a ∈ sampleDb.apps,
          item.chatroom_id = c.id ∧ c.status = 1 ∧ c.app_id = a.id ∧
          a.status = 1 ∧ a.mode = 5 ∧ item.app_id = some a.id :=
  C5_visibility sampleDb 1 10 3 emptyFilter sampleListResult sample_list_eval

/-- C10: for each positive link the agent lookup's result is appended
unconditionally, so a dangling link (positive agent id with no agent
row) yields a `none` entry in `agent_list` rather than being skipped or
raising an error. -/
theorem C10_dangling_links (db : DB) (page page_size uidv : Int) (nm : String)
    (r : RoomListResult) (h : all_chat_room_list db page page_size uidv nm = .ok r) :
    ∀ item ∈ r.list,
      item.agent_list =
        (positiveLinks db item.chatroom_id).map (fun l => agentLookup db l.agent_id) ∧
      ∀ l ∈ positiveLinks db item.chatroom_id,
        agentLookup db l.agent_id ∈ item.agent_list := by
  obtain ⟨hz, rows, hsel, hr⟩ := all_chat_room_list_ok h
  subst hr
  intro item hit
  rcases List.mem_map.mp hit with ⟨row, hrow, hitem⟩
  subst hitem
  refine ⟨rfl, ?_⟩
  intro l hl
  exact List.mem_map_of_mem _ hl

theorem C10_witness :
    roomItem11 ∈ sampleListResult.list ∧
      roomItem11.agent_list =
        (positiveLinks sampleDb roomItem11.chatroom_id).map
          (fun l => agentLookup sampleDb l.agent_id) ∧
      none ∈ roomItem11.agent_list :=
  ⟨by decide,
    (C10_dangling_links sampleDb 1 10 3 emptyFilter sampleListResult
      sample_list_eval roomItem11 (by decide)).1,
    by decide⟩

/-! ### Lemmas about the recent-activity lister -/

/-- Membership in the inner-joined recent table exposes the rows, and
shows the carried timestamp is the room's run maximum. -/
theorem mem_recentJoined {db : DB} {t : Chatroom × App × Int}
    (h : t ∈ recentJoined db) :
    t.1 ∈ db.chatrooms ∧ t.2.1 ∈ db.apps ∧ t.2.1.id = t.1.app_id ∧
      t.2.2 = maxCreated db t.1.id := by
  rcases List.mem_flatMap.mp h with ⟨c, hc, h2⟩
  rcases List.mem_flatMap.mp h2 with ⟨a, ha, h3⟩
  rcases List.mem_map.mp h3 with ⟨p, hp, ht⟩
  subst ht
  rcases List.mem_filter.mp hp with ⟨hpl, hpeq⟩
  rcases List.mem_filter.mp ha with ⟨hamem, haid⟩
  rcases List.mem_map.mp hpl with ⟨cid, hcid, hpe⟩
  subst hpe
  have hceq : cid = c.id := by simpa using hpeq
  subst hceq
  exact ⟨hc, hamem, by simpa using haid, rfl⟩

/-- The hydration loop with an always-succeeding helper succeeds and
maps each row to its item, attaching agents exactly on non-zero ids. -/
theorem attachAgents_ok (g : Int → List Int) (rows : List RecentRow) :
    attachAgents (fun cid => .ok (g cid)) rows =
      .ok (rows.map fun r =>
        mkRecentItem r (if r.chatroom_id == 0 then none else some (g r.chatroom_id))) := by
  induction rows with
  | nil => rfl
  | cons r rs ih =>
    cases h0 : (r.chatroom_id == 0) with
    | true =>
      have h0p : r.chatroom_id = 0 := by simpa using h0
      simp [attachAgents, h0, ih, mkRecentItem, h0p]
    | false =>
      have h0p : ¬ r.chatroom_id = 0 := by simpa using h0
      simp [attachAgents, h0, ih, Except.map, mkRecentItem, h0p]

/-- The database-backed oracle's `try` block succeeds with the mapped
rows. -/
theorem recentTry_dbOracle (db : DB) (excl uidv : Int) :
    recentTry (dbOracle db excl uidv) =
      .ok ⟨(recentRawRows db excl uidv).map fun r =>
        mkRecentItem r (if r.chatroom_id == 0 then none
          else some (specShowRoomAgents db r.chatroom_id))⟩ := by
  show (match attachAgents (fun cid => Except.ok (specShowRoomAgents db cid))
      (recentRawRows db excl uidv) with
    | Except.error e => Except.error e
    | Except.ok items => Except.ok (⟨items⟩ : RecentResult)) = _
  rw [attachAgents_ok (specShowRoomAgents db)]

/-- Shape of the pure recent listing: the raw rows mapped to items. -/
theorem recentPure_eq (db : DB) (excl uidv : Int) :
    (recentPure db excl uidv).list =
      (recentRawRows db excl uidv).map fun r =>
        mkRecentItem r (if r.chatroom_id == 0 then none
          else some (specShowRoomAgents db r.chatroom_id)) := by
  show (match recentTry (dbOracle db excl uidv) with
    | Except.ok r => r
    | Except.error _ => (⟨[]⟩ : RecentResult)).list = _
  rw [recentTry_dbOracle]

/-- The hydration loop fails whenever the helper fails on any row with
non-zero room id. -/
theorem attachAgents_error (g : Int → Except String (List Int))
    {rows : List RecentRow} {row : RecentRow}
    (hrow : row ∈ rows) (h0 : row.chatroom_id ≠ 0)
    (he : ∃ e, g row.chatroom_id = Except.error e) :
    ∃ e2, attachAgents g rows = Except.error e2 := by
  induction rows with
  | nil => cases hrow
  | cons r rs ih =>
    rcases List.mem_cons.mp hrow with heq | hmem
    · subst heq
      obtain ⟨e, he1⟩ := he
      have hbeq : (row.chatroom_id == 0) = false := by simp [h0]
      exact ⟨e, by simp [attachAgents, hbeq, he1, Except.map]⟩
    · obtain ⟨e2, he2⟩ := ih hmem
      cases hb : (r.chatroom_id == 0) with
      | true => exact ⟨e2, by simp [attachAgents, hb, he2]⟩
      | false =>
        cases hg : g r.chatroom_id with
        | error e => exact ⟨e, by simp [attachAgents, hb, hg, Except.map]⟩
        | ok al => exact ⟨e2, by simp [attachAgents, hb, hg, Except.map, he2]⟩

/-- C6: the recent listing never contains the excluded room, has at
most 5 entries, and is ordered by descending last-activity time (the
per-room maximum `created_time` over its run records). -/
theorem C6_recent (db : DB) (excl uidv : Int) :
    (∀ item ∈ (recentPure db excl uidv).list, item.chatroom_id ≠ excl) ∧
      (recentPure db excl uidv).list.length ≤ 5 ∧
      ((recentPure db excl uidv).list.map
        (fun it => maxCreated db it.chatroom_id)).Pairwise (fun a b => b ≤ a) := by
  rw [recentPure_eq]
  refine ⟨?_, ?_, ?_⟩
  · intro item hit
    rcases List.mem_map.mp hit with ⟨row, hrow, hitem⟩
    subst hitem
    show row.chatroom_id ≠ excl
    unfold recentRawRows at hrow
    rcases List.mem_map.mp hrow with ⟨t, ht, hre⟩
    subst hre
    have htf : t ∈ (recentJoined db).filter (recentCond excl uidv) :=
      (perm_sortDescBy _ _).mem_iff.mp (List.mem_of_mem_take ht)
    rcases List.mem_filter.mp htf with ⟨htj, htc⟩
    unfold recentCond at htc
    simp only [Bool.and_eq_true, Bool.not_eq_eq_eq_not, Bool.not_true,
      beq_eq_false_iff_ne, beq_iff_eq] at htc
    exact htc.2
  · rw [List.length_map]
    unfold recentRawRows
    rw [List.length_map]
    exact List.length_take_le 5 _
  · rw [List.map_map]
    unfold recentRawRows
    rw [List.map_map]
    have hsorted : ((sortDescBy (fun t : Chatroom × App × Int => t.2.2)
        ((recentJoined db).filter (recentCond excl uidv))).take 5).Pairwise
        (fun a b => b.2.2 ≤ a.2.2) :=
      (pairwise_sortDescBy _ _).sublist (List.take_sublist _ _)
    refine List.pairwise_map.mpr (List.Pairwise.imp_of_mem ?_ hsorted)
    intro a b hma hmb hab
    have hja : a ∈ recentJoined db :=
      (List.mem_filter.mp ((perm_sortDescBy _ _).mem_iff.mp
        (List.mem_of_mem_take hma))).1
    have hjb : b ∈ recentJoined db :=
      (List.mem_filter.mp ((perm_sortDescBy _ _).mem_iff.mp
        (List.mem_of_mem_take hmb))).1
    have hea := (mem_recentJoined hja).2.2.2
    have heb := (mem_recentJoined hjb).2.2.2
    show maxCreated db b.1.id ≤ maxCreated db a.1.id
    rw [← hea, ← heb]
    exact hab

theorem C6_witness :
    ((∀ item ∈ (recentPure sampleDb 7 3).list, item.chatroom_id ≠ 7) ∧
      (recentPure sampleDb 7 3).list.length ≤ 5 ∧
      ((recentPure sampleDb 7 3).list.map
        (fun it => maxCreated sampleDb it.chatroom_id)).Pairwise (fun a b => b ≤ a)) ∧
      (recentPure sampleDb 7 3).list.map RecentItem.chatroom_id = [11, 10] :=
  ⟨C6_recent sampleDb 7 3, by decide⟩

/-- C7: any execution error inside `recent_chatroom_list` — a failure
of the raw query or of the per-room hydration helper — is caught and
turned into the empty `{"list": []}` result instead of propagating. -/
theorem C7_swallowed (q : RecentOracle) :
    ((∃ e, q.execQuery = Except.error e) → recent_chatroom_list q = ⟨[]⟩) ∧
      (∀ rows row, q.execQuery = Except.ok rows → row ∈ rows → row.chatroom_id ≠ 0 →
        (∃ e, q.showAgents row.chatroom_id = Except.error e) →
        recent_chatroom_list q = ⟨[]⟩) := by
  constructor
  · rintro ⟨e, he⟩
    unfold recent_chatroom_list recentTry
    rw [he]
  · rintro rows row hq hrow h0 he
    obtain ⟨e2, he2⟩ := attachAgents_error q.showAgents hrow h0 he
    unfold recent_chatroom_list recentTry
    rw [hq]
    show (match (match attachAgents q.showAgents rows with
      | Except.error e => Except.error e
      | Except.ok items => Except.ok (⟨items⟩ : RecentResult)) with
      | Except.ok r => r
      | Except.error _ => (⟨[]⟩ : RecentResult)) = (⟨[]⟩ : RecentResult)
    rw [he2]

/-- The message carried by the failing witness oracle. -/
def connLost : String := "connection lost"

/-- An oracle whose raw query fails. -/
def failingOracle : RecentOracle :=
  ⟨Except.error connLost, fun _ => Except.ok []⟩

theorem C7_witness :
    (∃ e, failingOracle.execQuery = Except.error e) ∧
      recent_chatroom_list failingOracle = ⟨[]⟩ :=
  ⟨⟨connLost, rfl⟩, (C7_swallowed failingOracle).1 ⟨connLost, rfl⟩⟩

/-- C8 (code bug): no pagination validation happens. `page_size = 0` is
passed straight into the final ceiling division, raising Python's
`ZeroDivisionError`, and `page = 0` sends the negative offset
`-page_size` into the query layer, raising an SQL error — the call is
neither rejected with a validation error nor clamped. -/
theorem C8_no_validation :
    all_chat_room_list sampleDb 1 0 3 emptyFilter = .error DbError.divByZero ∧
      all_chat_room_list sampleDb 0 10 3 emptyFilter = .error DbError.sqlErr :=
  ⟨rfl, rfl⟩

/-- A database whose only visible recent room has id 0 (with a run
record, an active mode-5 app, and an agent link). -/
def zeroIdDb : DB :=
  ⟨[⟨0, 3, 1, 8, 1, 0, 1, 0⟩],
   [⟨1, "zeroApp", "d", "i", "ib", 1, 5⟩],
   [],
   [⟨4, 0, 5⟩],
   [⟨1, 0, 100⟩]⟩

/-- C9 counterexample: a successful `recent_chatroom_list` call whose
(non-empty) result contains an item carrying no `agent_list` key — the
room with id 0 fails Python's truthiness test `if chatroom_id:`, so the
hydration is skipped for it. -/
theorem C9_counterexample :
    ¬ ∀ item ∈ (recentPure zeroIdDb 7 3).list, item.agent_list.isSome := by
  decide

/-- C9 (amended): every item of a successful recent listing whose
`chatroom_id` is non-zero carries the hydrated `agent_list`; an item
for a room with id 0 is returned without the key. -/
theorem C9_amended (db : DB) (excl uidv : Int) :
    ∀ item ∈ (recentPure db excl uidv).list, item.chatroom_id ≠ 0 →
      item.agent_list = some (specShowRoomAgents db item.chatroom_id) := by
  rw [recentPure_eq]
  intro item hit h0
  rcases List.mem_map.mp hit with ⟨row, hrow, hitem⟩
  subst hitem
  have h0b : row.chatroom_id ≠ 0 := h0
  have hb : (row.chatroom_id == 0) = false := by simp [h0b]
  show (if row.chatroom_id == 0 then none
    else some (specShowRoomAgents db row.chatroom_id)) = _
  rw [hb]
  rfl

/-- Room 11's item in the recent listing of `sampleDb`. -/
def recentItem11 : RecentItem := ⟨"roomApp", "d", 11, 1, 1, some [9]⟩

theorem C9_witness :
    recentItem11 ∈ (recentPure sampleDb 7 3).list ∧
      recentItem11.agent_list =
        some (specShowRoomAgents sampleDb recentItem11.chatroom_id) :=
  ⟨by decide, C9_amended sampleDb 7 3 recentItem11 (by decide) (by decide)⟩

end Chatrooms
